import Mathlib

/-!
Verification development for the raftjs Device Telemetry Protocol Engine.

Shallow embedding of the TypeScript sources:
  - `src/RaftDeviceStates.ts` (attribute formatting, device key helpers)
  - `src/RaftPublish.ts` (publish-frame classification)
  - `src/RaftDeviceManager.ts` (devbin binary record parsing, device lifecycle,
    stats tracking, device-type cache coalescing, action encoding)

Modelling conventions:
  - JavaScript numbers that hold telemetry values are modelled as `Rat`
    (the values the claims exercise are exactly representable);
    byte indices / counts are `Nat`.
  - JavaScript objects used as string-keyed maps are modelled as association
    lists in insertion order (JS string-keyed objects preserve insertion
    order); assignment is `alSet`, `delete` is `alErase`.
  - Asynchronous callbacks are modelled as event logs: invoking a callback
    appends a record to the corresponding list.
  - External collaborators absent from the sources (the struct-pack
    primitive, the JSON text parser, the attribute handler, the message
    transport) are parameters of the embedding or are modelled from the
    spec where a claim depends on them (marked `Modelled from the spec:`).
-/

/-! ## Association-list maps (JS object semantics) -/

/-- JS `String.prototype.padStart(targetLength, padChar)`; a non-positive
target length (including the NaN-coerced 0) leaves the string unchanged. -/
def padStartStr (s : String) (targetLen : ℤ) (c : Char) : String :=
  if (s.length : ℤ) < targetLen then
    String.mk (List.replicate (targetLen - (s.length : ℤ)).toNat c) ++ s
  else s

/-- JS `parseInt(s, 10)`: skip whitespace, optional sign, then a leading run
of decimal digits; `none` models `NaN` (no digits). Parsing stops at the
first non-digit, so `parseInt("2f") = 2`. -/
def parseIntJs (s : String) : Option ℤ :=
  let cs := s.data.dropWhile (fun c => c == ' ' || c == '\t' || c == '\n' || c == '\r')
  let signAndRest : ℤ × List Char :=
    match cs with
    | '-' :: rest => (-1, rest)
    | '+' :: rest => (1, rest)
    | _ => (1, cs)
  let digits := signAndRest.2.takeWhile (fun c => c.isDigit)
  if digits.isEmpty then none
  else some (signAndRest.1 * ((digits.foldl (fun acc c => acc * 10 + (c.toNat - 48)) 0 : ℕ) : ℤ))

/-- JS `Number.prototype.toFixed(d)` on an exact rational: decimal rendering
with `d` fraction digits, rounding half away from zero. -/
def jsToFixed (v : ℚ) (d : ℕ) : String :=
  let neg : Bool := decide (v < 0)
  let a : ℚ := if neg then -v else v
  let r : ℕ := (Int.floor (a * ((10 : ℚ) ^ d) + 1 / 2)).toNat
  let ds : List Char := Nat.toDigits 10 r
  let ds := List.replicate (d + 1 - ds.length) '0' ++ ds
  let s :=
    if d = 0 then String.mk ds
    else String.mk (ds.take (ds.length - d)) ++ "." ++ String.mk (ds.drop (ds.length - d))
  if neg then "-" ++ s else s

/-- JS `n.toString(16)` for a non-negative number: lowercase hex digits,
no leading zeros, `"0"` for zero. -/
def natToHexStr (n : ℕ) : String :=
  String.mk (Nat.toDigits 16 n)

/-- JS `n.toString(16)` including negative numbers (sign-prefixed). -/
def intToHexStr (i : ℤ) : String :=
  if i < 0 then "-" ++ natToHexStr i.natAbs else natToHexStr i.toNat

/-- Stand-in for JS `Number.prototype.toString()` on a rational value:
exact decimal text for integers; non-integers (which JS renders via
shortest-round-trip float printing) are rendered as a fraction. Only
reached on code paths outside the verified claims (no format string, or an
unrecognized conversion character). -/
def jsNumToString (q : ℚ) : String :=
  if q.den = 1 then toString q.num else toString q.num ++ "/" ++ toString q.den

/-- JS `s.startsWith(pre)`, computed over the character list. -/
def jsStartsWith (s pre : String) : Bool :=
  pre.data.isPrefixOf s.data

/-- JS `s.endsWith(suf)`, computed over the character list. -/
def jsEndsWith (s suf : String) : Bool :=
  suf.data.isSuffixOf s.data

/-- JS `s.slice(n)` for a non-negative start, over the character list. -/
def jsStrDrop (s : String) (n : ℕ) : String :=
  String.mk (s.data.drop n)

/-- JS `s.slice(0, -n)`, over the character list. -/
def jsStrDropRight (s : String) (n : ℕ) : String :=
  String.mk (s.data.take (s.data.length - n))

/-- JS `s.split(c)` on a single-character separator (always non-empty). -/
def splitOnCharList (c : Char) : List Char → List (List Char)
  | [] => [[]]
  | x :: xs =>
    let r := splitOnCharList c xs
    if x = c then [] :: r else (x :: r.headD []) :: r.tail

/-- JS `s.split(c)` on a single-character separator. -/
def jsSplitOnChar (s : String) (c : Char) : List String :=
  (splitOnCharList c s.data).map String.mk

/-- The last `k` elements of a list (oldest-first eviction keeps a suffix). -/
def lastN {α : Type} (k : ℕ) (l : List α) : List α :=
  l.drop (l.length - k)

/-! ## Data model (`src/RaftDeviceStates.ts`) -/

/-- `DeviceAttributeState` from `RaftDeviceStates.ts`. -/
structure DeviceAttributeState where
  name : String := ""
  newAttribute : Bool := false
  newData : Bool := false
  numNewValues : ℕ := 0
  values : List ℚ := []
  units : String := ""
  range : List ℚ := []
  format : String := ""
  visibleSeries : Bool := true
  visibleForm : Bool := true
  deriving Repr, DecidableEq

/-- Modelled from the spec: `DeviceTypeAction` (§4.7 / RaftDeviceInfo.ts);
fields are those consulted by `sendAction` / `sendCompoundAction`. -/
structure DeviceTypeAction where
  n : String := ""
  t : Option String := none
  w : Option String := none
  wz : Option String := none
  sub : Option ℚ := none
  mul : Option ℚ := none
  concat : Option Bool := none
  deriving Repr, DecidableEq

/-- `parseDeviceKey` from `RaftDeviceStates.ts`: split at the first `_`. -/
def parseDeviceKey (deviceKey : String) : String × String :=
  match deviceKey.splitOn "_" with
  | [] => (deviceKey, "")
  | [only] => (only, "")
  | bus :: rest => (bus, String.intercalate "_" rest)

/-! ## Attribute display formatting (`deviceAttrGetLatestFormatted`) -/

/-- Format-string application of `deviceAttrGetLatestFormatted`
(`RaftDeviceStates.ts`), factored over the latest value. -/
def applyFormat (format0 : String) (value : ℚ) : String :=
  let format := if jsStartsWith format0 "%" then jsStrDrop format0 1 else format0
  if jsEndsWith format "f" then
    let parts := jsSplitOnChar format '.'
    let decimalPlaces : ℕ :=
      if parts.length = 2 then ((parseIntJs (parts.getD 1 "")).getD 0).toNat else 0
    let formattedNumber := jsToFixed value decimalPlaces
    match parseIntJs (parts.getD 0 "") with
    | some w => if w ≠ 0 then padStartStr formattedNumber w ' ' else formattedNumber
    | none => formattedNumber
  else if jsEndsWith format "x" then
    let totalLength := (parseIntJs (jsStrDropRight format 1)).getD 0
    padStartStr (intToHexStr (Int.floor value)) totalLength
      (if jsStartsWith format "0" then '0' else ' ')
  else if jsEndsWith format "d" then
    let totalLength := (parseIntJs (jsStrDropRight format 1)).getD 0
    padStartStr (toString (Int.floor value)) totalLength
      (if jsStartsWith format "0" then '0' else ' ')
  else if jsEndsWith format "b" then
    if Int.floor value = 0 then "no" else "yes"
  else jsNumToString value

/-- `deviceAttrGetLatestFormatted` from `RaftDeviceStates.ts`. -/
def deviceAttrGetLatestFormatted (attrState : DeviceAttributeState) : String :=
  if attrState.values.length = 0 then "N/A"
  else if attrState.format.length = 0 then
    jsNumToString ((attrState.values.getLast?).getD 0)
  else applyFormat attrState.format ((attrState.values.getLast?).getD 0)

/-! ## Publish-frame classification (`src/RaftPublish.ts`) -/

/-- `RaftPublishFrameMeta` from `RaftTypes.ts` as populated by
`inspectPublishFrame`; absent fields are `none`. -/
structure RaftPublishFrameMeta where
  frameType : String := "unknown"
  topicIndex : Option ℕ := none
  topicName : Option String := none
  version : Option ℕ := none
  jsonString : Option String := none
  binaryHasEnvelope : Option Bool := none
  binaryPayloadOffset : Option ℕ := none
  deriving Repr, DecidableEq

/-- `inspectPublishFrame` from `RaftPublish.ts`. The JSON branch
(TextDecoder + `JSON.parse` + `_t`/`_v` extraction) is abstracted as the
parameter `jsonBranch`; it is only entered when the byte after the 2-byte
prefix is `0x7B`. `topicLookup` models the optional topic-index lookup. -/
def inspectPublishFrame (jsonBranch : List ℕ → RaftPublishFrameMeta)
    (topicLookup : Option (ℕ → Option String)) (payload : List ℕ) : RaftPublishFrameMeta :=
  if payload.length < 2 then { frameType := "unknown" }
  else if payload.length ≤ 2 then { frameType := "unknown" }
  else
    if payload.getD 2 0 = 0x7B then jsonBranch payload
    else
      let firstBinaryByte := payload.getD 2 0
      if Nat.land firstBinaryByte 0xF0 = 0xD0 then
        if firstBinaryByte < 0xDB ∨ 0xDF < firstBinaryByte then
          { frameType := "binary", binaryHasEnvelope := some true }
        else
          let topicIndex := if 2 + 1 < payload.length then some (payload.getD 3 0) else none
          let topicName :=
            match topicIndex, topicLookup with
            | some ti, some lk => if ti ≠ 0xFF then lk ti else none
            | _, _ => none
          { frameType := "binary", topicIndex := topicIndex, topicName := topicName,
            version := some (firstBinaryByte - 0xDA), binaryHasEnvelope := some true,
            binaryPayloadOffset := some 4 }
      else
        { frameType := "binary", binaryHasEnvelope := some false,
          binaryPayloadOffset := some 2 }

/-! ## Device stats (`RaftDeviceManager.ts` stats helpers) -/

/-- One entry of the per-device sliding-window event log. -/
structure WindowEvent where
  timeMs : ℕ
  samples : ℕ
  deriving Repr, DecidableEq

/-- `DeviceStatsInternal` from `RaftDeviceManager.ts` (`DeviceStats` plus
the window event log). Sample rate is kept exact as a rational. -/
structure DeviceStatsInternal where
  totalSamples : ℕ := 0
  windowMs : ℕ := 5000
  windowSamples : ℕ := 0
  sampleRateHz : ℚ := 0
  lastSampleTimeMs : Option ℕ := none
  lastUpdateTimeMs : Option ℕ := none
  windowEvents : List WindowEvent := []
  deriving Repr, DecidableEq

/-- `createEmptyStats` from `RaftDeviceManager.ts`; `statsWindowMs` is the
manager's `_statsWindowMs` field (default 5000). -/
def createEmptyStats (statsWindowMs : ℕ) : DeviceStatsInternal :=
  { totalSamples := 0, windowMs := statsWindowMs, windowSamples := 0, sampleRateHz := 0,
    lastSampleTimeMs := none, lastUpdateTimeMs := none, windowEvents := [] }

/-- The windowing tail of `updateDeviceStats` (`RaftDeviceManager.ts`):
drop window-expired events from the log head, sum the remaining samples,
and derive the sample rate (zero when the log empties). -/
def applyWindowTrim (stats : DeviceStatsInternal) (nowMs : ℕ) : DeviceStatsInternal :=
  let windowStartMs : ℤ := (nowMs : ℤ) - (stats.windowMs : ℤ)
  let remaining := stats.windowEvents.dropWhile (fun e => decide ((e.timeMs : ℤ) < windowStartMs))
  let windowSamples := remaining.foldl (fun sum e => sum + e.samples) 0
  match remaining with
  | [] => { stats with windowEvents := [], windowSamples := windowSamples, sampleRateHz := 0 }
  | oldest :: rest =>
    let actualWindowMs : ℚ := max 1 ((nowMs : ℚ) - (oldest.timeMs : ℚ))
    { stats with windowEvents := oldest :: rest, windowSamples := windowSamples,
                 sampleRateHz := ((windowSamples : ℚ) * 1000) / actualWindowMs }

/-- `updateDeviceStats` from `RaftDeviceManager.ts`, acting on one device's
stats record: record the update time, append the new event when samples
arrived, then apply the window trim and rate derivation. -/
def updateDeviceStatsPure (stats0 : DeviceStatsInternal) (newSamples nowMs : ℕ) :
    DeviceStatsInternal :=
  let stats := { stats0 with lastUpdateTimeMs := some nowMs }
  let stats :=
    if 0 < newSamples then
      { stats with totalSamples := stats.totalSamples + newSamples,
                   lastSampleTimeMs := some nowMs,
                   windowEvents := stats.windowEvents ++ [⟨nowMs, newSamples⟩] }
    else stats
  applyWindowTrim stats nowMs

/-! ## JSON side-channel markers and decoded-data events -/

/-- The value list `sendAction` (`RaftDeviceManager.ts`) hands to the
struct-pack primitive: with exactly one data item the schema-declared
subtrahend `sub` is subtracted and the multiplier `mul` applied; any other
number of items is passed through unchanged. -/
def sendActionPackedValues (action : DeviceTypeAction) (data : List ℚ) : List ℚ :=
  if data.length = 1 then
    let value := data.headD 0
    let value := match action.sub with | some s => value - s | none => value
    let value := match action.mul with | some m => value * m | none => value
    [value]
  else data

/-- The wire bytes `sendAction` builds: `structPack` (`RaftStruct.ts`, an
external collaborator) is a parameter keyed by the action's type-code
string; a missing or empty (falsy) type code yields no bytes. -/
def sendActionWriteBytes (structPackFn : String → List ℚ → List ℕ)
    (action : DeviceTypeAction) (data : List ℚ) : List ℕ :=
  match action.t with
  | some t => if t.length ≠ 0 then structPackFn t (sendActionPackedValues action data) else []
  | none => []

/-- `toHex` from `RaftDeviceManager.ts`: each byte as two lowercase hex
digits. -/
def toHexStr (data : List ℕ) : String :=
  String.join (data.map (fun b => padStartStr (natToHexStr b) 2 '0'))

/-- The `hexWr` payload of `sendAction`: hex-encoded wire bytes wrapped in
the schema-declared literal `w` / `wz` strings. -/
def sendActionWriteHexStr (structPackFn : String → List ℚ → List ℕ)
    (action : DeviceTypeAction) (data : List ℚ) : String :=
  (action.w.getD "") ++ toHexStr (sendActionWriteBytes structPackFn action data) ++
    (action.wz.getD "")

theorem lastN_nil {α : Type} (k : ℕ) : lastN k ([] : List α) = [] := by
  simp [lastN]

/-- Window-trim stage of `updateDeviceStats`: an empty trimmed log yields
rate 0 and 0 window samples; otherwise the rate is
`windowSamples * 1000 / max 1 (now − oldestRemainingEventTime)`. -/
theorem applyWindowTrim_spec (s : DeviceStatsInternal) (nowMs : ℕ) :
    ((applyWindowTrim s nowMs).windowEvents = [] →
      (applyWindowTrim s nowMs).sampleRateHz = 0 ∧ (applyWindowTrim s nowMs).windowSamples = 0)
    ∧ (∀ (oldest : WindowEvent) (rest : List WindowEvent),
        (applyWindowTrim s nowMs).windowEvents = oldest :: rest →
        (applyWindowTrim s nowMs).sampleRateHz
          = ((applyWindowTrim s nowMs).windowSamples : ℚ) * 1000
              / max 1 ((nowMs : ℚ) - (oldest.timeMs : ℚ))) := by
  rcases hdw : s.windowEvents.dropWhile
      (fun e => decide ((e.timeMs : ℤ) < (nowMs : ℤ) - (s.windowMs : ℤ))) with _ | ⟨oldest0, rest0⟩
  · simp only [applyWindowTrim, hdw]
    exact ⟨fun _ => ⟨trivial, by simp⟩, fun oldest rest heq => absurd heq (by simp)⟩
  · simp only [applyWindowTrim, hdw]
    refine ⟨fun heq => absurd heq (by simp), fun oldest rest heq => ?_⟩
    simp only [List.cons.injEq] at heq
    rw [heq.1]

/-- C3: `updateDeviceStats` computes the sample rate as
`windowSamples * 1000 / max(1, now − oldest remaining event time)`, with
rate 0 and `windowSamples` 0 when the event log is empty after dropping
expired head entries; with the 5000ms-default window set to 500ms, events
of 10 samples at t=0 and 10 samples at t=400 give `windowSamples = 20` and
rate 50 at t=400, and an update after more than 500ms of inactivity (at
t=901) gives `windowSamples = 0` and rate 0. -/
theorem raftC3 :
    (∀ (stats : DeviceStatsInternal) (newSamples nowMs : ℕ),
      ((updateDeviceStatsPure stats newSamples nowMs).windowEvents = [] →
        (updateDeviceStatsPure stats newSamples nowMs).sampleRateHz = 0
        ∧ (updateDeviceStatsPure stats newSamples nowMs).windowSamples = 0)
      ∧ (∀ (oldest : WindowEvent) (rest : List WindowEvent),
          (updateDeviceStatsPure stats newSamples nowMs).windowEvents = oldest :: rest →
          (updateDeviceStatsPure stats newSamples nowMs).sampleRateHz
            = ((updateDeviceStatsPure stats newSamples nowMs).windowSamples : ℚ) * 1000
                / max 1 ((nowMs : ℚ) - (oldest.timeMs : ℚ))))
    ∧ (updateDeviceStatsPure (updateDeviceStatsPure
        { createEmptyStats 5000 with windowMs := 500 } 10 0) 10 400).windowSamples = 20
    ∧ (updateDeviceStatsPure (updateDeviceStatsPure
        { createEmptyStats 5000 with windowMs := 500 } 10 0) 10 400).sampleRateHz = 50
    ∧ (updateDeviceStatsPure (updateDeviceStatsPure (updateDeviceStatsPure
        { createEmptyStats 5000 with windowMs := 500 } 10 0) 10 400) 0 901).windowSamples = 0
    ∧ (updateDeviceStatsPure (updateDeviceStatsPure (updateDeviceStatsPure
        { createEmptyStats 5000 with windowMs := 500 } 10 0) 10 400) 0 901).sampleRateHz = 0 := by
  refine ⟨fun stats newSamples nowMs => ?_, by decide, ?_, by decide, by decide⟩
  · unfold updateDeviceStatsPure
    exact applyWindowTrim_spec _ nowMs
  · show (((20 : ℕ) : ℚ) * 1000) / max 1 (((400 : ℕ) : ℚ) - ((0 : ℕ) : ℚ)) = 50
    norm_num

theorem raftC3_witness :
    (updateDeviceStatsPure { createEmptyStats 5000 with windowMs := 500 } 0 901).windowEvents = []
    ∧ (updateDeviceStatsPure { createEmptyStats 5000 with windowMs := 500 } 0 901).sampleRateHz = 0
    ∧ (updateDeviceStatsPure { createEmptyStats 5000 with windowMs := 500 } 0 901).windowSamples = 0 :=
  ⟨by decide,
    ((raftC3.1 { createEmptyStats 5000 with windowMs := 500 } 0 901).1 (by decide)).1,
    ((raftC3.1 { createEmptyStats 5000 with windowMs := 500 } 0 901).1 (by decide)).2⟩

/-- A digit character is none of the characters `parseIntJs` treats
specially (whitespace, sign, separator): unequal to any non-digit. -/
theorem digit_ne_of {c d : Char} (h : c.isDigit = true) (hd : d.isDigit = false) : c ≠ d := by
  intro he
  rw [he, hd] at h
  exact Bool.noConfusion h

/-- `takeWhile isDigit` keeps exactly an all-digit block followed by a
non-digit remainder. -/
theorem takeWhile_digits_append (ds rest : List Char)
    (hd : ∀ c ∈ ds, c.isDigit) (hr : ∀ c ∈ rest.head?, c.isDigit = false) :
    (ds ++ rest).takeWhile (fun c => c.isDigit) = ds := by
  induction ds with
  | nil =>
    simp only [List.nil_append]
    cases rest with
    | nil => rfl
    | cons r t =>
      rw [List.takeWhile_cons]
      simp [hr r rfl]
  | cons c tail ih =>
    rw [List.cons_append, List.takeWhile_cons]
    simp only [hd c (List.mem_cons_self _ _), if_true]
    rw [ih (fun x hx => hd x (List.mem_cons_of_mem _ hx))]

/-- `parseIntJs` on the empty string is `NaN`. -/
theorem parseIntJs_nil : parseIntJs (String.mk []) = none := rfl

/-- `parseIntJs` on a digit-headed string: the whitespace skip and sign
match are inert, leaving the leading digit run's value. -/
theorem parseIntJs_digit_head (c : Char) (l : List Char) (hc : c.isDigit = true) :
    parseIntJs (String.mk (c :: l)) =
      some ((((c :: l).takeWhile (fun ch => ch.isDigit)).foldl
        (fun acc ch => acc * 10 + (ch.toNat - 48)) 0 : ℕ) : ℤ) := by
  have hws : (c == ' ' || c == '\t' || c == '\n' || c == '\r') = false := by
    have h1 : c ≠ ' ' := digit_ne_of hc (by decide)
    have h2 : c ≠ '\t' := digit_ne_of hc (by decide)
    have h3 : c ≠ '\n' := digit_ne_of hc (by decide)
    have h4 : c ≠ '\r' := digit_ne_of hc (by decide)
    simp [h1, h2, h3, h4]
  have hm : c ≠ '-' := digit_ne_of hc (by decide)
  have hp : c ≠ '+' := digit_ne_of hc (by decide)
  unfold parseIntJs
  simp only [List.dropWhile_cons, hws, Bool.false_eq_true, if_false]
  split
  · rename_i heq
    exfalso
    split at heq
    · rename_i rest h2
      exact hm (List.cons.inj h2).1
    · rename_i rest h2
      exact hp (List.cons.inj h2).1
    · simp [List.takeWhile_cons, hc] at heq
  · rename_i heq
    split
    · rename_i rest h2
      exact absurd (List.cons.inj h2).1 hm
    · rename_i rest h2
      exact absurd (List.cons.inj h2).1 hp
    · simp [one_mul]

/-- `takeWhile isDigit` keeps an all-digit list whole. -/
theorem takeWhile_digits (ds : List Char) (hd : ∀ c ∈ ds, c.isDigit) :
    ds.takeWhile (fun c => c.isDigit) = ds := by
  have h := takeWhile_digits_append ds [] hd (by simp)
  rwa [List.append_nil] at h

/-- JS `parseInt` stops at the first non-digit: a trailing non-digit
suffix (such as a conversion character) does not change the parse. -/
theorem parseIntJs_digits_append (ds rest : List Char) (hne : ds ≠ [])
    (hd : ∀ c ∈ ds, c.isDigit) (hr : ∀ c ∈ rest.head?, c.isDigit = false) :
    parseIntJs (String.mk (ds ++ rest)) = parseIntJs (String.mk ds) := by
  rcases ds with _ | ⟨c, tail⟩
  · exact absurd rfl hne
  have hc : c.isDigit = true := hd c (List.mem_cons_self _ _)
  rw [List.cons_append, parseIntJs_digit_head c (tail ++ rest) hc,
    parseIntJs_digit_head c tail hc]
  rw [show c :: (tail ++ rest) = (c :: tail) ++ rest from rfl,
    takeWhile_digits_append (c :: tail) rest hd hr, takeWhile_digits (c :: tail) hd]

/-- Splitting a separator-free list yields the list itself. -/
theorem splitOnCharList_of_forall_ne (sep : Char) (l : List Char) (h : ∀ c ∈ l, c ≠ sep) :
    splitOnCharList sep l = [l] := by
  induction l with
  | nil => rfl
  | cons x xs ih =>
    simp only [splitOnCharList]
    rw [ih (fun c hc => h c (List.mem_cons_of_mem _ hc))]
    simp [h x (List.mem_cons_self _ _)]

/-- Splitting at the first separator occurrence peels off the
separator-free head block. -/
theorem splitOnCharList_append_sep (sep : Char) (A B : List Char) (h : ∀ c ∈ A, c ≠ sep) :
    splitOnCharList sep (A ++ sep :: B) = A :: splitOnCharList sep B := by
  induction A with
  | nil => simp [splitOnCharList]
  | cons x xs ih =>
    rw [List.cons_append]
    simp only [splitOnCharList]
    rw [ih (fun c hc => h c (List.mem_cons_of_mem _ hc))]
    simp [h x (List.mem_cons_self _ _)]

/-- A one-character suffix test only looks at the last character. -/
theorem isSuffixOf_concat (l : List Char) (a b : Char) :
    ([a].isSuffixOf (l ++ [b])) = (a == b) := by
  simp [List.isSuffixOf, List.isPrefixOf, List.reverse_append]

/-- A digit character is not the decimal separator. -/
theorem digit_ne_dot {c : Char} (h : c.isDigit = true) : c ≠ '.' :=
  digit_ne_of h (by decide)

/-- A successful `parseIntJs` means the input was non-empty. -/
theorem parseIntJs_some_ne_nil {ds : List Char} {z : ℤ}
    (h : parseIntJs (String.mk ds) = some z) : ds ≠ [] := by
  rintro rfl
  rw [parseIntJs_nil] at h
  exact Option.noConfusion h

/-- `applyFormat` on an arbitrary `%[width].[precision]f` format string:
fixed-point rendering with the parsed precision, left-padded with spaces
(never zeros) to the parsed width. -/
theorem applyFormat_f (wds pds : List Char) (w p : ℕ) (v : ℚ)
    (hwd : ∀ c ∈ wds, c.isDigit) (hpd : ∀ c ∈ pds, c.isDigit)
    (hw : parseIntJs (String.mk wds) = some (w : ℤ))
    (hp : parseIntJs (String.mk pds) = some (p : ℤ)) :
    applyFormat (String.mk ('%' :: (wds ++ '.' :: (pds ++ ['f'])))) v
      = padStartStr (jsToFixed v p) (w : ℤ) ' ' := by
  have hstart : jsStartsWith (String.mk ('%' :: (wds ++ '.' :: (pds ++ ['f'])))) "%" = true := by
    simp [jsStartsWith, List.isPrefixOf]
  have hdrop : jsStrDrop (String.mk ('%' :: (wds ++ '.' :: (pds ++ ['f'])))) 1
      = String.mk (wds ++ '.' :: (pds ++ ['f'])) := rfl
  have hEndsF : jsEndsWith (String.mk (wds ++ '.' :: (pds ++ ['f']))) "f" = true := by
    show ("f".data.isSuffixOf (String.mk (wds ++ '.' :: (pds ++ ['f']))).data) = true
    rw [show (String.mk (wds ++ '.' :: (pds ++ ['f']))).data = (wds ++ '.' :: pds) ++ ['f']
      by simp]
    rw [show "f".data = ['f'] from rfl, isSuffixOf_concat]
    decide
  have hsplit : jsSplitOnChar (String.mk (wds ++ '.' :: (pds ++ ['f']))) '.'
      = [String.mk wds, String.mk (pds ++ ['f'])] := by
    show (splitOnCharList '.' (wds ++ '.' :: (pds ++ ['f']))).map String.mk = _
    rw [splitOnCharList_append_sep '.' wds (pds ++ ['f'])
      (fun c hc => digit_ne_dot (hwd c hc))]
    rw [splitOnCharList_of_forall_ne '.' (pds ++ ['f'])]
    · rfl
    · intro c hc
      rcases List.mem_append.mp hc with h | h
      · exact digit_ne_dot (hpd c h)
      · simp only [List.mem_singleton] at h
        subst h
        decide
  have hppf : parseIntJs (String.mk (pds ++ ['f'])) = some (p : ℤ) := by
    rw [parseIntJs_digits_append pds ['f'] (parseIntJs_some_ne_nil hp) hpd (by decide)]
    exact hp
  unfold applyFormat
  simp only [hstart, if_true, hdrop, hEndsF, hsplit, List.length_cons, List.length_nil,
    List.getD, List.get?_cons_zero, List.get?_cons_succ, Option.getD_some, hppf, hw,
    Int.toNat_natCast]
  by_cases hw0 : w = 0
  · subst hw0
    rw [if_neg (by simp)]
    show jsToFixed v p = padStartStr (jsToFixed v p) ((0 : ℕ) : ℤ) ' '
    unfold padStartStr
    rw [if_neg (by simp)]
  · rw [if_pos (by exact_mod_cast hw0)]

/-- `applyFormat` on an arbitrary `%[width]x` format string: lowercase
hex of the floored value, padded to the parsed width with `'0'` when the
width field begins with `'0'` and with spaces otherwise. -/
theorem applyFormat_x (wds : List Char) (w : ℕ) (v : ℚ)
    (hwd : ∀ c ∈ wds, c.isDigit)
    (hw : parseIntJs (String.mk wds) = some (w : ℤ)) :
    applyFormat (String.mk ('%' :: (wds ++ ['x']))) v
      = padStartStr (intToHexStr (Int.floor v)) (w : ℤ)
          (if wds.headD ' ' = '0' then '0' else ' ') := by
  have hstart : jsStartsWith (String.mk ('%' :: (wds ++ ['x']))) "%" = true := by
    simp [jsStartsWith, List.isPrefixOf]
  have hdrop : jsStrDrop (String.mk ('%' :: (wds ++ ['x']))) 1
      = String.mk (wds ++ ['x']) := rfl
  have hEndsF : jsEndsWith (String.mk (wds ++ ['x'])) "f" = false := by
    show ("f".data.isSuffixOf (String.mk (wds ++ ['x'])).data) = false
    rw [show "f".data = ['f'] from rfl]
    rw [show (String.mk (wds ++ ['x'])).data = wds ++ ['x'] from rfl, isSuffixOf_concat]
    decide
  have hEndsX : jsEndsWith (String.mk (wds ++ ['x'])) "x" = true := by
    show ("x".data.isSuffixOf (String.mk (wds ++ ['x'])).data) = true
    rw [show "x".data = ['x'] from rfl]
    rw [show (String.mk (wds ++ ['x'])).data = wds ++ ['x'] from rfl, isSuffixOf_concat]
    decide
  have hdr : jsStrDropRight (String.mk (wds ++ ['x'])) 1 = String.mk wds := by
    show String.mk ((wds ++ ['x']).take ((wds ++ ['x']).length - 1)) = String.mk wds
    rw [show (wds ++ ['x']).length - 1 = wds.length by simp, List.take_left]
  have hstart0 : jsStartsWith (String.mk (wds ++ ['x'])) "0" = ('0' == wds.headD ' ') := by
    rcases wds with _ | ⟨c, tail⟩
    · exact absurd rfl (parseIntJs_some_ne_nil hw)
    · show (("0".data).isPrefixOf ((c :: tail) ++ ['x'])) = ('0' == (c :: tail).headD ' ')
      rw [show "0".data = ['0'] from rfl, List.cons_append]
      simp [List.isPrefixOf]
  unfold applyFormat
  simp only [hstart, if_true, hdrop, hEndsF, Bool.false_eq_true, if_false, hEndsX,
    hdr, hw, Option.getD_some, hstart0]
  congr 1
  by_cases hc0 : wds.headD ' ' = '0'
  · rw [if_pos hc0, if_pos (by rw [hc0]; decide)]
  · rw [if_neg (fun h => hc0 (eq_of_beq h).symm), if_neg hc0]

/-- `applyFormat` on an arbitrary `%[width]d` format string: decimal of
the floored value, padded to the parsed width with `'0'` when the width
field begins with `'0'` and with spaces otherwise. -/
theorem applyFormat_d (wds : List Char) (w : ℕ) (v : ℚ)
    (hwd : ∀ c ∈ wds, c.isDigit)
    (hw : parseIntJs (String.mk wds) = some (w : ℤ)) :
    applyFormat (String.mk ('%' :: (wds ++ ['d']))) v
      = padStartStr (toString (Int.floor v)) (w : ℤ)
          (if wds.headD ' ' = '0' then '0' else ' ') := by
  have hstart : jsStartsWith (String.mk ('%' :: (wds ++ ['d']))) "%" = true := by
    simp [jsStartsWith, List.isPrefixOf]
  have hdrop : jsStrDrop (String.mk ('%' :: (wds ++ ['d']))) 1
      = String.mk (wds ++ ['d']) := rfl
  have hEndsF : jsEndsWith (String.mk (wds ++ ['d'])) "f" = false := by
    show ("f".data.isSuffixOf (String.mk (wds ++ ['d'])).data) = false
    rw [show "f".data = ['f'] from rfl]
    rw [show (String.mk (wds ++ ['d'])).data = wds ++ ['d'] from rfl, isSuffixOf_concat]
    decide
  have hEndsX : jsEndsWith (String.mk (wds ++ ['d'])) "x" = false := by
    show ("x".data.isSuffixOf (String.mk (wds ++ ['d'])).data) = false
    rw [show "x".data = ['x'] from rfl]
    rw [show (String.mk (wds ++ ['d'])).data = wds ++ ['d'] from rfl, isSuffixOf_concat]
    decide
  have hEndsD : jsEndsWith (String.mk (wds ++ ['d'])) "d" = true := by
    show ("d".data.isSuffixOf (String.mk (wds ++ ['d'])).data) = true
    rw [show "d".data = ['d'] from rfl]
    rw [show (String.mk (wds ++ ['d'])).data = wds ++ ['d'] from rfl, isSuffixOf_concat]
    decide
  have hdr : jsStrDropRight (String.mk (wds ++ ['d'])) 1 = String.mk wds := by
    show String.mk ((wds ++ ['d']).take ((wds ++ ['d']).length - 1)) = String.mk wds
    rw [show (wds ++ ['d']).length - 1 = wds.length by simp, List.take_left]
  have hstart0 : jsStartsWith (String.mk (wds ++ ['d'])) "0" = ('0' == wds.headD ' ') := by
    rcases wds with _ | ⟨c, tail⟩
    · exact absurd rfl (parseIntJs_some_ne_nil hw)
    · show (("0".data).isPrefixOf ((c :: tail) ++ ['d'])) = ('0' == (c :: tail).headD ' ')
      rw [show "0".data = ['0'] from rfl, List.cons_append]
      simp [List.isPrefixOf]
  unfold applyFormat
  simp only [hstart, if_true, hdrop, hEndsF, Bool.false_eq_true, if_false, hEndsX, hEndsD,
    hdr, hw, Option.getD_some, hstart0]
  congr 1
  by_cases hc0 : wds.headD ' ' = '0'
  · rw [if_pos hc0, if_pos (by rw [hc0]; decide)]
  · rw [if_neg (fun h => hc0 (eq_of_beq h).symm), if_neg hc0]

/-- Latest-value selection of `deviceAttrGetLatestFormatted`: with a
non-empty history and a non-empty format string, the result is the format
applied to the last value. -/
theorem deviceAttr_last_fmt (a : DeviceAttributeState) (vs : List ℚ) (v : ℚ)
    (hv : a.values = vs ++ [v]) (hf : a.format.length ≠ 0) :
    deviceAttrGetLatestFormatted a = applyFormat a.format v := by
  unfold deviceAttrGetLatestFormatted
  rw [hv, if_neg (by simp), if_neg hf]
  simp [List.getLast?_concat]

/-- C7: `deviceAttrGetLatestFormatted` returns "N/A" on an empty value
history; otherwise, applied to the latest value, for every width and
precision given as digit fields of the format string: `f` renders
fixed-point with the given precision left-padded with spaces to the given
width (never zero-padded, even when the width field begins with '0' as in
`%06.2f`); `x` renders lowercase hex of the floored value padded to the
given width with '0' when the stripped format begins with '0' and with
spaces otherwise; `d` renders decimal of the floored value with the same
padding rule; `b` renders "yes" iff the floored value is nonzero; in
particular 3.14159 with `%06.2f` gives "  3.14", 255 with `%04x` gives
"00ff", and 0 with `%b` gives "no". -/
theorem raftC7 :
    (∀ a : DeviceAttributeState, a.values = [] → deviceAttrGetLatestFormatted a = "N/A")
    ∧ (∀ (a : DeviceAttributeState) (vs : List ℚ) (v : ℚ) (wds pds : List Char) (w p : ℕ),
        a.values = vs ++ [v] →
        a.format = String.mk ('%' :: (wds ++ '.' :: (pds ++ ['f']))) →
        (∀ c ∈ wds, c.isDigit) → (∀ c ∈ pds, c.isDigit) →
        parseIntJs (String.mk wds) = some (w : ℤ) →
        parseIntJs (String.mk pds) = some (p : ℤ) →
        deviceAttrGetLatestFormatted a = padStartStr (jsToFixed v p) (w : ℤ) ' ')
    ∧ (∀ (a : DeviceAttributeState) (vs : List ℚ) (v : ℚ) (wds : List Char) (w : ℕ),
        a.values = vs ++ [v] →
        a.format = String.mk ('%' :: (wds ++ ['x'])) →
        (∀ c ∈ wds, c.isDigit) →
        parseIntJs (String.mk wds) = some (w : ℤ) →
        deviceAttrGetLatestFormatted a
          = padStartStr (intToHexStr (Int.floor v)) (w : ℤ)
              (if wds.headD ' ' = '0' then '0' else ' '))
    ∧ (∀ (a : DeviceAttributeState) (vs : List ℚ) (v : ℚ) (wds : List Char) (w : ℕ),
        a.values = vs ++ [v] →
        a.format = String.mk ('%' :: (wds ++ ['d'])) →
        (∀ c ∈ wds, c.isDigit) →
        parseIntJs (String.mk wds) = some (w : ℤ) →
        deviceAttrGetLatestFormatted a
          = padStartStr (toString (Int.floor v)) (w : ℤ)
              (if wds.headD ' ' = '0' then '0' else ' '))
    ∧ (∀ (a : DeviceAttributeState) (vs : List ℚ) (v : ℚ), a.values = vs ++ [v] →
        a.format = "%b" →
        deviceAttrGetLatestFormatted a = if Int.floor v = 0 then "no" else "yes")
    ∧ deviceAttrGetLatestFormatted { values := [(314159 : ℚ)/100000], format := "%06.2f" } = "  3.14"
    ∧ deviceAttrGetLatestFormatted { values := [255], format := "%04x" } = "00ff"
    ∧ deviceAttrGetLatestFormatted { values := [0], format := "%b" } = "no" := by
  refine ⟨?_, ?_, ?_, ?_, ?_, ?_, ?_, ?_⟩
  · intro a h
    simp [deviceAttrGetLatestFormatted, h]
  · intro a vs v wds pds w p hv hfmt hwd hpd hw hp
    have hlen : a.format.length ≠ 0 := by
      rw [hfmt]
      show ('%' :: (wds ++ '.' :: (pds ++ ['f']))).length ≠ 0
      simp
    rw [deviceAttr_last_fmt a vs v hv hlen, hfmt]
    exact applyFormat_f wds pds w p v hwd hpd hw hp
  · intro a vs v wds w hv hfmt hwd hw
    have hlen : a.format.length ≠ 0 := by
      rw [hfmt]
      show ('%' :: (wds ++ ['x'])).length ≠ 0
      simp
    rw [deviceAttr_last_fmt a vs v hv hlen, hfmt]
    exact applyFormat_x wds w v hwd hw
  · intro a vs v wds w hv hfmt hwd hw
    have hlen : a.format.length ≠ 0 := by
      rw [hfmt]
      show ('%' :: (wds ++ ['d'])).length ≠ 0
      simp
    rw [deviceAttr_last_fmt a vs v hv hlen, hfmt]
    exact applyFormat_d wds w v hwd hw
  · intro a vs v hv hf
    rw [deviceAttr_last_fmt a vs v hv (by rw [hf]; decide), hf]
    rfl
  · rw [deviceAttr_last_fmt _ [] ((314159 : ℚ)/100000) rfl (by decide)]
    show padStartStr (jsToFixed ((314159 : ℚ)/100000) 2) 6 ' ' = "  3.14"
    have hneg : (decide (((314159 : ℚ)/100000) < 0)) = false := by norm_num
    have hfl : Int.floor (((314159 : ℚ)/100000) * ((10 : ℚ) ^ (2 : ℕ)) + 1 / 2) = 314 := by
      norm_num
    simp only [jsToFixed, hneg, Bool.false_eq_true, if_false, hfl]
    decide
  · rw [deviceAttr_last_fmt _ [] (255 : ℚ) rfl (by decide)]
    show padStartStr (intToHexStr (Int.floor (255 : ℚ))) 4 '0' = "00ff"
    have hfl : Int.floor ((255 : ℚ)) = 255 := by norm_num
    rw [hfl]
    decide
  · rw [deviceAttr_last_fmt _ [] (0 : ℚ) rfl (by decide)]
    show (if Int.floor ((0 : ℚ)) = 0 then "no" else "yes") = "no"
    norm_num

theorem raftC7_witness :
    deviceAttrGetLatestFormatted ({ values := [] } : DeviceAttributeState) = "N/A"
    ∧ deviceAttrGetLatestFormatted { values := [(314159 : ℚ)/100000], format := "%09.3f" } = "    3.142"
    ∧ deviceAttrGetLatestFormatted { values := [255], format := "%08x" } = "000000ff"
    ∧ deviceAttrGetLatestFormatted { values := [(7 : ℚ)/2], format := "%05d" } = "00003"
    ∧ deviceAttrGetLatestFormatted { values := [7], format := "%b" } = "yes" := by
  refine ⟨raftC7.1 _ rfl, ?_, ?_, ?_, ?_⟩
  · have h := raftC7.2.1 { values := [(314159 : ℚ)/100000], format := "%09.3f" } []
      ((314159 : ℚ)/100000) ['0', '9'] ['3'] 9 3 rfl (by decide) (by decide) (by decide)
      (by decide) (by decide)
    rw [h]
    have hneg : (decide (((314159 : ℚ)/100000) < 0)) = false := by norm_num
    have hfl : Int.floor (((314159 : ℚ)/100000) * ((10 : ℚ) ^ (3 : ℕ)) + 1 / 2) = 3142 := by
      norm_num
    simp only [jsToFixed, hneg, Bool.false_eq_true, if_false, hfl]
    decide
  · have h := raftC7.2.2.1 { values := [255], format := "%08x" } [] 255 ['0', '8'] 8
      rfl (by decide) (by decide) (by decide)
    rw [h]
    have hfl : Int.floor ((255 : ℚ)) = 255 := by norm_num
    rw [hfl]
    decide
  · have h := raftC7.2.2.2.1 { values := [(7 : ℚ)/2], format := "%05d" } [] ((7 : ℚ)/2)
      ['0', '5'] 5 rfl (by decide) (by decide) (by decide)
    rw [h]
    have hfl : Int.floor (((7 : ℚ)/2)) = 3 := by norm_num
    rw [hfl]
    decide
  · rw [raftC7.2.2.2.2.1 { values := [7], format := "%b" } [] 7 rfl rfl]
    norm_num

/-- A devbin magic byte in `0xDB`–`0xDF` has high nibble `0xD`. -/
theorem devbin_magic_land {b : ℕ} (hlo : 0xDB ≤ b) (hhi : b ≤ 0xDF) :
    Nat.land b 0xF0 = 0xD0 := by
  interval_cases b <;> decide

/-- C6: for every payload whose byte after the 2-byte prefix has high
nibble `0xD`: bytes `0xDB`–`0xDF` yield a binary frame with envelope,
version `byte − 0xDA` (between 1 and 5), the following byte as topic index
(absent when the payload ends there), payload offset 4, and no topic-name
lookup when the topic index is `0xFF`; bytes outside `0xDB`–`0xDF` yield a
binary frame flagged as enveloped with no version, topic, or
payload-offset metadata. -/
theorem raftC6 :
    (∀ (jsonBranch : List ℕ → RaftPublishFrameMeta) (topicLookup : Option (ℕ → Option String))
        (payload : List ℕ), 2 < payload.length →
      0xDB ≤ payload.getD 2 0 → payload.getD 2 0 ≤ 0xDF →
      inspectPublishFrame jsonBranch topicLookup payload
        = { frameType := "binary",
            topicIndex := if 2 + 1 < payload.length then some (payload.getD 3 0) else none,
            topicName :=
              match (if 2 + 1 < payload.length then some (payload.getD 3 0) else none),
                  topicLookup with
              | some ti, some lk => if ti ≠ 0xFF then lk ti else none
              | _, _ => none,
            version := some (payload.getD 2 0 - 0xDA),
            binaryHasEnvelope := some true, binaryPayloadOffset := some 4 }
        ∧ 1 ≤ payload.getD 2 0 - 0xDA ∧ payload.getD 2 0 - 0xDA ≤ 5)
    ∧ (∀ (jsonBranch : List ℕ → RaftPublishFrameMeta) (topicLookup : Option (ℕ → Option String))
        (payload : List ℕ), 2 < payload.length →
      Nat.land (payload.getD 2 0) 0xF0 = 0xD0 →
      (payload.getD 2 0 < 0xDB ∨ 0xDF < payload.getD 2 0) →
      inspectPublishFrame jsonBranch topicLookup payload
        = { frameType := "binary", binaryHasEnvelope := some true })
    ∧ (∀ (jsonBranch : List ℕ → RaftPublishFrameMeta) (topicLookup : Option (ℕ → Option String))
        (payload : List ℕ), 2 < payload.length →
      0xDB ≤ payload.getD 2 0 → payload.getD 2 0 ≤ 0xDF → payload.getD 3 0 = 0xFF →
      (inspectPublishFrame jsonBranch topicLookup payload).topicName = none) := by
  refine ⟨?_, ?_, ?_⟩
  · intro jsonBranch topicLookup payload hlen hlo hhi
    have hb : ¬ (payload.getD 2 0 = 0x7B) := by omega
    refine ⟨?_, by omega, by omega⟩
    unfold inspectPublishFrame
    rw [if_neg (by omega), if_neg (by omega), if_neg hb, if_pos (devbin_magic_land hlo hhi),
      if_neg (by omega)]
  · intro jsonBranch topicLookup payload hlen hland hout
    have hb : ¬ (payload.getD 2 0 = 0x7B) := by
      intro h
      rw [h] at hland
      exact absurd hland (by decide)
    unfold inspectPublishFrame
    rw [if_neg (by omega), if_neg (by omega), if_neg hb, if_pos hland, if_pos hout]
  · intro jsonBranch topicLookup payload hlen hlo hhi hff
    have hb : ¬ (payload.getD 2 0 = 0x7B) := by omega
    unfold inspectPublishFrame
    rw [if_neg (by omega), if_neg (by omega), if_neg hb, if_pos (devbin_magic_land hlo hhi),
      if_neg (by omega)]
    by_cases h3 : 2 + 1 < payload.length
    · rcases topicLookup with _ | lk
      · simp [h3]
      · simp only [if_pos h3, hff]
        simp
    · rcases topicLookup with _ | lk <;> simp [h3]

theorem raftC6_witness :
    inspectPublishFrame (fun _ => { frameType := "json" })
        (some (fun i => if i = 1 then some "devbin" else none)) [0, 0x80, 0xDB, 0x01, 1, 2]
      = { frameType := "binary", topicIndex := some 1, topicName := some "devbin",
          version := some 1, binaryHasEnvelope := some true, binaryPayloadOffset := some 4 }
    ∧ inspectPublishFrame (fun _ => { frameType := "json" }) none [0, 0x80, 0xDA, 0x01]
      = { frameType := "binary", binaryHasEnvelope := some true }
    ∧ (inspectPublishFrame (fun _ => { frameType := "json" })
        (some (fun i => if i = 1 then some "devbin" else none)) [0, 0x80, 0xDB, 0xFF]).topicName
      = none := by
  refine ⟨?_, ?_, ?_⟩
  · exact ((raftC6.1 (fun _ => { frameType := "json" })
      (some (fun i => if i = 1 then some "devbin" else none)) [0, 0x80, 0xDB, 0x01, 1, 2]
      (by decide) (by decide) (by decide)).1).trans (by decide)
  · exact raftC6.2.1 (fun _ => { frameType := "json" }) none [0, 0x80, 0xDA, 0x01]
      (by decide) (by decide) (by decide)
  · exact raftC6.2.2 (fun _ => { frameType := "json" })
      (some (fun i => if i = 1 then some "devbin" else none)) [0, 0x80, 0xDB, 0xFF]
      (by decide) (by decide) (by decide) (by decide)

